import Mathlib

/-
Verification of the Apache-Scraper core: the Jira REST fetch client
(src/api/jiraClient.ts) and the checkpoint progress ledger
(src/utils/checkpointManager.ts), shallowly embedded in Lean.

Conventions of the embedding:
- Time stamps produced by new Date().toISOString() become explicit String
  arguments named now.
- The fetch side effects (milliseconds slept via setTimeout, number of HTTP
  requests issued) are reified as extra result components.
- The durable checkpoint file becomes an explicit list of documents written
  (each save call appends the document it wrote), and loading is a function
  on the stored document; JSON.stringify / JSON.parse round-tripping is
  modelled as the identity on documents.
-/

namespace Scraper

/-! ## Fetch client: data model (src/api/jiraClient.ts) -/

/-- One HTTP response as observed by fetchWithRetry: its status code, the
optional Retry-After header (modelled as an already parsed number of
seconds, mirroring parseInt on the header value), and the response body
text (response.text(), used for 4xx error messages). -/
structure HttpResponse where
  status : Nat
  retryAfter : Option Nat
  body : String
deriving DecidableEq

/-- The errors thrown by fetchWithRetry, carrying the data interpolated
into the corresponding Error message strings:
rateLimitExceeded m ~ "Rate limit exceeded after m retries",
serverError s m ~ "Server error s after m retries",
clientError s b ~ "Client error s: b". -/
inductive FetchError where
  | rateLimitExceeded (maxRetries : Nat)
  | serverError (status maxRetries : Nat)
  | clientError (status : Nat) (body : String)
deriving DecidableEq

/-- Result of one logical fetchWithRetry call: the returned response or the
propagated error. -/
inductive FetchOutcome where
  | ok (response : HttpResponse)
  | error (e : FetchError)
deriving DecidableEq

/-- Bool test: pat is a leading segment of s (character lists). -/
def leadsWith : List Char → List Char → Bool
  | [], _ => true
  | _ :: _, [] => false
  | p :: ps, c :: cs => p == c && leadsWith ps cs

/-- Bool test: pat occurs contiguously somewhere in s (character lists). -/
def occursIn (pat : List Char) : List Char → Bool
  | [] => pat.isEmpty
  | c :: cs => leadsWith pat (c :: cs) || occursIn pat cs

/-- JavaScript String.prototype.includes, on Lean strings. -/
def strIncludes (s pat : String) : Bool :=
  occursIn pat.toList s.toList

/-- The catch clause of fetchWithRetry tests
error.message.includes("fetch failed") || error.message.includes("network").
The three message templates listed at FetchError interpolate only decimal
digit strings outside the body: the fixed texts "Rate limit exceeded after ",
" retries", "Server error ", " after " and "Client error " contain neither
pattern, contain no occurrence spanning into a digit group (both patterns
are digit-free, and no suffix of any fixed text that ends right before the
body is a nonempty proper leading segment of either pattern), so a match is
possible exactly when the clientError body contains the pattern. This
definition is that residue of the source test. -/
def isNetworkError : FetchError → Bool
  | .clientError _ body => strIncludes body "fetch failed" || strIncludes body "network"
  | _ => false

/-- fetchWithRetry from src/api/jiraClient.ts, lines 71-132. The server
argument gives the HTTP response to the attempt with a given retryCount
(the claims only concern servers answering uniformly per attempt). The
result is the outcome together with the list of waits performed (in ms, in
chronological order) and the number of HTTP requests issued. The structure
mirrors the source: a try block handling 429 / 5xx / 4xx / other, then the
catch block, which receives every error raised in the try block - including
errors propagating out of the recursive calls made inside the try block -
and retries with exponential backoff when the message test isNetworkError
succeeds, rethrowing otherwise. Errors raised by the recursive calls made
inside the catch block are not handled again by this frame. -/
def fetchWithRetry (server : Nat → HttpResponse) (maxRetries retryCount : Nat) :
    FetchOutcome × List Nat × Nat :=
  let response := server retryCount
  let tryResult : FetchOutcome × List Nat × Nat :=
    if response.status == 429 then
      let waitTime := match response.retryAfter with
        | some ra => ra * 1000
        | none => 2 ^ retryCount * 1000
      if h : retryCount < maxRetries then
        let rest := fetchWithRetry server maxRetries (retryCount + 1)
        (rest.1, waitTime :: rest.2.1, 1 + rest.2.2)
      else
        (.error (.rateLimitExceeded maxRetries), [waitTime], 1)
    else if 500 ≤ response.status ∧ response.status < 600 then
      let waitTime := 2 ^ retryCount * 1000
      if h : retryCount < maxRetries then
        let rest := fetchWithRetry server maxRetries (retryCount + 1)
        (rest.1, waitTime :: rest.2.1, 1 + rest.2.2)
      else
        (.error (.serverError response.status maxRetries), [waitTime], 1)
    else if 400 ≤ response.status ∧ response.status < 500 then
      (.error (.clientError response.status response.body), [], 1)
    else
      (.ok response, [], 1)
  match tryResult with
  | (.error e, waits, reqs) =>
    if isNetworkError e then
      let waitTime := 2 ^ retryCount * 1000
      if _h : retryCount < maxRetries then
        let rest := fetchWithRetry server maxRetries (retryCount + 1)
        (rest.1, waits ++ waitTime :: rest.2.1, reqs + rest.2.2)
      else
        (.error e, waits ++ [waitTime], reqs)
    else
      (.error e, waits, reqs)
  | other => other
termination_by maxRetries + 1 - retryCount
decreasing_by all_goals omega

/-! ## Fetch client: pagination (getAllIssues) -/

/-- The JiraSearchResponse interface, with issues abstracted to a list of
item identifiers (the pagination logic only appends and counts them). -/
structure JiraSearchResponse where
  issues : List Nat
  startAt : Nat
  maxResults : Nat
  total : Nat
deriving DecidableEq

/-- The guard limit && allIssues.length >= limit of getAllIssues. A null
limit and a limit of 0 are both falsy in JavaScript, so neither triggers
the cap. -/
def limitHit (limit : Option Nat) (count : Nat) : Bool :=
  match limit with
  | none => false
  | some l => if l == 0 then false else decide (l ≤ count)

/-- The while (hasMore) loop body of getAllIssues (src/api/jiraClient.ts,
lines 196-229). search abstracts this.searchIssues: it maps (startAt,
maxResults) to the parsed page or none (searchIssues returns null on any
failure). Returns the accumulated issues and the list of startAt offsets
requested, in order. fuel bounds the number of iterations; every theorem
instantiates it above the number of pages actually taken. -/
def getAllIssuesGo (search : Nat → Nat → Option JiraSearchResponse)
    (limit : Option Nat) :
    Nat → List Nat → Nat → List Nat × List Nat
  | 0, allIssues, _ => (allIssues, [])
  | fuel + 1, allIssues, startAt =>
    match search startAt 50 with
    | none => (allIssues, [startAt])
    | some response =>
      let allIssues := allIssues ++ response.issues
      if limitHit limit allIssues.length then
        (allIssues.take (limit.getD 0), [startAt])
      else
        let hasMore := decide (startAt + 50 < response.total)
        let startAt2 := startAt + 50
        let hasMore := if response.total ≤ startAt2 then false else hasMore
        if hasMore then
          let rest := getAllIssuesGo search limit fuel allIssues startAt2
          (rest.1, startAt :: rest.2)
        else
          (allIssues, [startAt])

/-- getAllIssues: start the pagination loop at startAt = 0 with an empty
accumulator (maxResults is the constant 50 of the source). -/
def getAllIssues (search : Nat → Nat → Option JiraSearchResponse)
    (limit : Option Nat) (fuel : Nat) : List Nat × List Nat :=
  getAllIssuesGo search limit fuel [] 0

/-- The page of item identifiers a well-behaved server with the given total
returns for a request at offset startAt. -/
def pageIssues (total startAt maxResults : Nat) : List Nat :=
  ((List.range total).drop startAt).take maxResults

/-- A well-behaved search endpoint over a collection with the given fixed
total: every request succeeds and returns the corresponding slice. -/
def serverTotal (total : Nat) : Nat → Nat → Option JiraSearchResponse :=
  fun startAt maxResults =>
    some ⟨pageIssues total startAt maxResults, startAt, maxResults, total⟩

/-! ## Progress ledger: data model (src/utils/checkpointManager.ts) -/

/-- The CheckpointState interface. -/
structure CheckpointState where
  projectKey : String
  lastIssueKey : String
  lastIssueIndex : Int
  totalIssuesProcessed : Nat
  timestamp : String
  completed : Bool
deriving DecidableEq

/-- The ScraperCheckpoint interface; the projects object becomes an
association list in insertion order (JavaScript objects with string keys
preserve insertion order, which getSummary relies on via Object.values). -/
structure ScraperCheckpoint where
  projects : List (String × CheckpointState)
  startTime : String
  lastUpdateTime : String
deriving DecidableEq

/-- Reading this.checkpoint.projects[projectKey]. -/
def lookupProject : List (String × CheckpointState) → String → Option CheckpointState
  | [], _ => none
  | (k, s) :: rest, key => if k = key then some s else lookupProject rest key

/-- Assigning this.checkpoint.projects[projectKey] = s: overwrite the
existing entry in place, or append a new one. -/
def setProject : List (String × CheckpointState) → String → CheckpointState →
    List (String × CheckpointState)
  | [], key, s => [(key, s)]
  | (k, s0) :: rest, key, s =>
    if k = key then (k, s) :: rest else (k, s0) :: setProject rest key s

/-- Mutating the record stored at an existing key through f (field
assignments on this.checkpoint.projects[projectKey]); leaves the list
unchanged when the key is absent. -/
def modifyProject : List (String × CheckpointState) → String →
    (CheckpointState → CheckpointState) → List (String × CheckpointState)
  | [], _, _ => []
  | (k, s) :: rest, key, f =>
    if k = key then (k, f s) :: rest else (k, s) :: modifyProject rest key f

/-- private save() (lines 53-64): stamp lastUpdateTime, then write the whole
document to durable storage. Returns the new in-memory document and the
singleton list of documents written. -/
def save (cp : ScraperCheckpoint) (now : String) :
    ScraperCheckpoint × List ScraperCheckpoint :=
  let cp2 := { cp with lastUpdateTime := now }
  (cp2, [cp2])

/-- initProject (lines 66-78): create the fresh record and save only when no
record exists for the key. -/
def initProject (cp : ScraperCheckpoint) (projectKey now : String) :
    ScraperCheckpoint × List ScraperCheckpoint :=
  match lookupProject cp.projects projectKey with
  | some _ => (cp, [])
  | none =>
    let fresh : CheckpointState :=
      { projectKey := projectKey, lastIssueKey := "", lastIssueIndex := -1,
        totalIssuesProcessed := 0, timestamp := now, completed := false }
    save { cp with projects := setProject cp.projects projectKey fresh } now

/-- updateProgress (lines 80-95): auto-initialize when the record is absent,
then overwrite lastIssueKey and lastIssueIndex, increment
totalIssuesProcessed, refresh the timestamp, and save. -/
def updateProgress (cp : ScraperCheckpoint) (projectKey issueKey : String)
    (issueIndex : Int) (now : String) :
    ScraperCheckpoint × List ScraperCheckpoint :=
  let init :=
    match lookupProject cp.projects projectKey with
    | none => initProject cp projectKey now
    | some _ => (cp, [])
  let cp2 := { init.1 with
    projects := modifyProject init.1.projects projectKey (fun s =>
      { s with lastIssueKey := issueKey, lastIssueIndex := issueIndex,
               totalIssuesProcessed := s.totalIssuesProcessed + 1,
               timestamp := now }) }
  let saved := save cp2 now
  (saved.1, init.2 ++ saved.2)

/-- markProjectCompleted (lines 97-103): set the completion flag and save,
only when the record exists. -/
def markProjectCompleted (cp : ScraperCheckpoint) (projectKey now : String) :
    ScraperCheckpoint × List ScraperCheckpoint :=
  match lookupProject cp.projects projectKey with
  | some _ =>
    save { cp with
      projects := modifyProject cp.projects projectKey
        (fun s => { s with completed := true }) } now
  | none => (cp, [])

/-- getLastIndex (lines 105-107). -/
def getLastIndex (cp : ScraperCheckpoint) (projectKey : String) : Int :=
  match lookupProject cp.projects projectKey with
  | some s => s.lastIssueIndex
  | none => -1

/-- isProjectCompleted (lines 109-111). -/
def isProjectCompleted (cp : ScraperCheckpoint) (projectKey : String) : Bool :=
  match lookupProject cp.projects projectKey with
  | some s => s.completed
  | none => false

/-- getProjectState (lines 113-115). -/
def getProjectState (cp : ScraperCheckpoint) (projectKey : String) :
    Option CheckpointState :=
  lookupProject cp.projects projectKey

/-- getAllStates (lines 117-119). -/
def getAllStates (cp : ScraperCheckpoint) : ScraperCheckpoint := cp

/-- clear (lines 121-129): replace the document by a fresh empty one, then
save. -/
def clear (now : String) : ScraperCheckpoint × List ScraperCheckpoint :=
  save { projects := [], startTime := now, lastUpdateTime := now } now

/-- One entry of getSummary().projects. -/
structure CheckpointSummaryProject where
  key : String
  progress : Nat
  completed : Bool
deriving DecidableEq

/-- The getSummary return shape. -/
structure CheckpointSummary where
  totalProjects : Nat
  completedProjects : Nat
  totalIssuesProcessed : Nat
  projects : List CheckpointSummaryProject
deriving DecidableEq

/-- getSummary (lines 131-149): pure aggregation over Object.values of the
projects map. -/
def getSummary (cp : ScraperCheckpoint) : CheckpointSummary :=
  let projects := cp.projects.map Prod.snd
  { totalProjects := projects.length,
    completedProjects := (projects.filter (fun p => p.completed)).length,
    totalIssuesProcessed :=
      projects.foldl (fun sum p => sum + p.totalIssuesProcessed) 0,
    projects := projects.map (fun p =>
      ⟨p.projectKey, p.totalIssuesProcessed, p.completed⟩) }

/-- private load() (lines 34-51): return the stored document when one
exists, a fresh empty document otherwise. The fs read plus JSON.parse of the
previously JSON.stringify-ed document is modelled as the identity on the
stored document. -/
def loadDoc (stored : Option ScraperCheckpoint) (now : String) :
    ScraperCheckpoint :=
  match stored with
  | some cp => cp
  | none => { projects := [], startTime := now, lastUpdateTime := now }

/-! ## Ledger operations as a step relation -/

/-- The public CheckpointManager methods, as an operation alphabet; every
method that reads the clock carries its now stamp. -/
inductive LedgerOp where
  | opInitProject (projectKey now : String)
  | opUpdateProgress (projectKey issueKey : String) (issueIndex : Int) (now : String)
  | opMarkProjectCompleted (projectKey now : String)
  | opGetLastIndex (projectKey : String)
  | opIsProjectCompleted (projectKey : String)
  | opGetProjectState (projectKey : String)
  | opGetAllStates
  | opGetSummary
  | opClear (now : String)
deriving DecidableEq

/-- Effect of one method call on the in-memory document, together with the
list of documents written to durable storage by that call. The query
methods getLastIndex, isProjectCompleted, getProjectState, getAllStates and
getSummary only read this.checkpoint (their return values are the pure
functions above) and never call save. -/
def step (cp : ScraperCheckpoint) : LedgerOp → ScraperCheckpoint × List ScraperCheckpoint
  | .opInitProject k now => initProject cp k now
  | .opUpdateProgress k key i now => updateProgress cp k key i now
  | .opMarkProjectCompleted k now => markProjectCompleted cp k now
  | .opGetLastIndex _ => (cp, [])
  | .opIsProjectCompleted _ => (cp, [])
  | .opGetProjectState _ => (cp, [])
  | .opGetAllStates => (cp, [])
  | .opGetSummary => (cp, [])
  | .opClear now => clear now

/-- Run a sequence of method calls, accumulating every document written. -/
def run (cp : ScraperCheckpoint) : List LedgerOp → ScraperCheckpoint × List ScraperCheckpoint
  | [] => (cp, [])
  | op :: ops =>
    let s := step cp op
    let r := run s.1 ops
    (r.1, s.2 ++ r.2)

/-- Is the operation a clear() call. -/
def LedgerOp.isClearOp : LedgerOp → Bool
  | .opClear _ => true
  | _ => false

/-- Is the operation an updateProgress call on the given collection. -/
def LedgerOp.isUpdateOn (key : String) : LedgerOp → Bool
  | .opUpdateProgress k _ _ _ => k == key
  | _ => false

/-! ## Concrete scenarios used by witnesses and counterexamples -/

/-- The wait computed for a 429 response at a given attempt (line 91):
Retry-After seconds when the header is present, 2 ^ attempt seconds
otherwise, in milliseconds. -/
def backoff429 (server : Nat → HttpResponse) (k : Nat) : Nat :=
  match (server k).retryAfter with
  | some ra => ra * 1000
  | none => 2 ^ k * 1000

/-- A server answering 429 on every attempt, with a Retry-After of 7 seconds
on attempt 1 only. -/
def server429 : Nat → HttpResponse := fun k =>
  { status := 429, retryAfter := if k = 1 then some 7 else none, body := "" }

/-- A server answering 503 on every attempt, always offering a Retry-After
header (which the 5xx branch must ignore). -/
def server503 : Nat → HttpResponse := fun _ =>
  { status := 503, retryAfter := some 7, body := "" }

/-- The freshly constructed empty ledger document. -/
def cpEmpty : ScraperCheckpoint :=
  { projects := [], startTime := "t0", lastUpdateTime := "t0" }

/-- A record already marked completed, with nothing processed yet. -/
def recCompletedX : CheckpointState :=
  { projectKey := "X", lastIssueKey := "", lastIssueIndex := -1,
    totalIssuesProcessed := 0, timestamp := "u1", completed := true }

/-- A ledger document holding only the completed record recCompletedX. -/
def cpCompletedX : ScraperCheckpoint :=
  { projects := [("X", recCompletedX)], startTime := "t0", lastUpdateTime := "u2" }

/-- The document persisted by the last save of
run cpEmpty [opUpdateProgress "X" "X-5" 5 "t1"]. -/
def docX : ScraperCheckpoint :=
  { projects := [("X",
      { projectKey := "X", lastIssueKey := "X-5", lastIssueIndex := 5,
        totalIssuesProcessed := 1, timestamp := "t1", completed := false })],
    startTime := "t0", lastUpdateTime := "t1" }

/-! ## Fetch client lemmas -/

theorem isNetworkError_rateLimitExceeded (m : Nat) :
    isNetworkError (.rateLimitExceeded m) = false := rfl

theorem isNetworkError_serverError (s m : Nat) :
    isNetworkError (.serverError s m) = false := rfl

theorem fetchWithRetry_all429 (server : Nat → HttpResponse) (m : Nat) :
    ∀ n j, j ≤ m → m - j = n →
    (∀ k, j ≤ k → k ≤ m → (server k).status = 429) →
    fetchWithRetry server m j =
      (.error (.rateLimitExceeded m),
       (List.range' j (m + 1 - j)).map (backoff429 server),
       m + 1 - j) := by
  intro n
  induction n with
  | zero =>
    intro j hj hn h
    have hjm : j = m := by omega
    subst hjm
    rw [fetchWithRetry.eq_def]
    have hs : (server j).status = 429 := h j le_rfl le_rfl
    have hr : j + 1 - j = 1 := by omega
    simp [hs, hr, isNetworkError, backoff429]
  | succ n ih =>
    intro j hj hn h
    have hjm : j < m := by omega
    have hs : (server j).status = 429 := h j le_rfl (by omega)
    have hrec := ih (j + 1) (by omega) (by omega) (fun k hk1 hk2 => h k (by omega) hk2)
    rw [fetchWithRetry.eq_def]
    have hr : m + 1 - j = (m + 1 - (j + 1)) + 1 := by omega
    have hrange : List.range' j (m + 1 - j) = j :: List.range' (j + 1) (m + 1 - (j + 1)) := by
      rw [hr]; rfl
    simp [hs, hjm, hrec, isNetworkError, hrange, backoff429]
    omega

theorem fetchWithRetry_all5xx (server : Nat → HttpResponse) (m : Nat) :
    ∀ n j, j ≤ m → m - j = n →
    (∀ k, j ≤ k → k ≤ m → 500 ≤ (server k).status ∧ (server k).status < 600) →
    fetchWithRetry server m j =
      (.error (.serverError (server m).status m),
       (List.range' j (m + 1 - j)).map (fun k => 2 ^ k * 1000),
       m + 1 - j) := by
  intro n
  induction n with
  | zero =>
    intro j hj hn h
    have hjm : j = m := by omega
    subst hjm
    rw [fetchWithRetry.eq_def]
    have hs := h j le_rfl le_rfl
    have hne : ((server j).status == 429) = false := by
      simp only [beq_eq_false_iff_ne, ne_eq]; omega
    have hr : j + 1 - j = 1 := by omega
    simp [hne, hs.1, hs.2, hr, isNetworkError]
  | succ n ih =>
    intro j hj hn h
    have hjm : j < m := by omega
    have hs := h j le_rfl (by omega)
    have hne : ((server j).status == 429) = false := by
      simp only [beq_eq_false_iff_ne, ne_eq]; omega
    have hrec := ih (j + 1) (by omega) (by omega) (fun k hk1 hk2 => h k (by omega) hk2)
    rw [fetchWithRetry.eq_def]
    have hr : m + 1 - j = (m + 1 - (j + 1)) + 1 := by omega
    have hrange : List.range' j (m + 1 - j) = j :: List.range' (j + 1) (m + 1 - (j + 1)) := by
      rw [hr]; rfl
    simp [hne, hs.1, hs.2, hjm, hrec, isNetworkError, hrange]
    omega

/-- C3: for every all-429 response sequence the client waits backoff429
(Retry-After when present, else 2 ^ attempt seconds) before each retry,
retries exactly maxRetries times (maxRetries + 1 requests in total), and
surfaces the rate-limit-exceeded failure. -/
theorem C3_rate_limited_retry_policy (server : Nat → HttpResponse) (m : Nat)
    (h : ∀ k, k ≤ m → (server k).status = 429) :
    fetchWithRetry server m 0 =
      (.error (.rateLimitExceeded m),
       (List.range (m + 1)).map (backoff429 server),
       m + 1) := by
  have hgo := fetchWithRetry_all429 server m m 0 (Nat.zero_le m) (by omega)
    (fun k _ hk => h k hk)
  simpa [List.range_eq_range'] using hgo

/-- C3 witness: with the hard-coded cap of 3 and server429, the client
issues 4 requests (3 retries), waits 1000 ms, then the server-provided
7000 ms, then 4000 ms and 8000 ms, and fails with rateLimitExceeded. -/
theorem C3_rate_limited_retry_policy_witness :
    (∀ k, k ≤ 3 → (server429 k).status = 429) ∧
    fetchWithRetry server429 3 0 =
      (.error (.rateLimitExceeded 3), [1000, 7000, 4000, 8000], 4) := by
  refine ⟨fun k _ => rfl, ?_⟩
  rw [C3_rate_limited_retry_policy server429 3 (fun k _ => rfl)]
  decide

/-- C4: for every all-5xx response sequence the wait before retry attempt k
is exactly 2 ^ k seconds - independent of any Retry-After header the
responses may carry - with the same cap of maxRetries retries and a
server-error failure carrying the final status after exhaustion. -/
theorem C4_server_error_backoff (server : Nat → HttpResponse) (m : Nat)
    (h : ∀ k, k ≤ m → 500 ≤ (server k).status ∧ (server k).status < 600) :
    fetchWithRetry server m 0 =
      (.error (.serverError (server m).status m),
       (List.range (m + 1)).map (fun k => 2 ^ k * 1000),
       m + 1) := by
  have hgo := fetchWithRetry_all5xx server m m 0 (Nat.zero_le m) (by omega)
    (fun k _ hk => h k hk)
  simpa [List.range_eq_range'] using hgo

/-- C4 witness: constant 503 responses offering Retry-After 7 s are retried
with the computed backoff 1 s, 2 s, 4 s (then 8 s before the final throw),
ignoring the header, and fail with serverError 503 after 4 requests. -/
theorem C4_server_error_backoff_witness :
    (∀ k, k ≤ 3 → 500 ≤ (server503 k).status ∧ (server503 k).status < 600) ∧
    fetchWithRetry server503 3 0 =
      (.error (.serverError 503 3), [1000, 2000, 4000, 8000], 4) := by
  refine ⟨fun k _ => by show 500 ≤ 503 ∧ 503 < 600; omega, ?_⟩
  rw [C4_server_error_backoff server503 3 (fun k _ => by show 500 ≤ 503 ∧ 503 < 600; omega)]
  decide

/-- C2, evaluated at the failing input: a 400 response whose body contains
the substring "network" is caught by the transport-error catch clause of
fetchWithRetry (the thrown message "Client error 400: network unreachable"
matches error.message.includes("network")) and is retried 3 times with
exponential backoff - 4 requests and waits of 1, 2, 4 and 8 seconds -
before the client error finally propagates; a 4xx body without such a
substring is propagated at once with no retry and no wait, as the claim
demands. -/
theorem C2_client_error_network_body_retried :
    fetchWithRetry (fun _ => ⟨400, none, "network unreachable"⟩) 3 0 =
      (.error (.clientError 400 "network unreachable"),
       [1000, 2000, 4000, 8000], 4) ∧
    fetchWithRetry (fun _ => ⟨400, none, "Issue Does Not Exist"⟩) 3 0 =
      (.error (.clientError 400 "Issue Does Not Exist"), [], 1) := by
  constructor
  · simp [fetchWithRetry, isNetworkError, strIncludes, occursIn, leadsWith]
  · simp [fetchWithRetry, isNetworkError, strIncludes, occursIn, leadsWith]

/-! ## Pagination theorems -/

/-- C5: for a server reporting total 137 with full 50-item pages and no
cap, getAllIssues requests exactly the offsets 0, 50, 100 and returns all
137 items; and, for every server, cap and accumulator, a page request that
fails terminally (searchIssues returning null) stops the loop at that
offset and yields the partial result accumulated so far - a normal return,
not an error. -/
theorem C5_pagination_full_and_partial :
    getAllIssues (serverTotal 137) none 10 = (List.range 137, [0, 50, 100]) ∧
    (∀ search limit acc startAt fuel, search startAt 50 = none →
       getAllIssuesGo search limit (fuel + 1) acc startAt = (acc, [startAt])) := by
  constructor
  · decide
  · intro search limit acc startAt fuel h
    simp [getAllIssuesGo, h]

/-- C5 witness: a server whose very first page request fails makes
getAllIssuesGo return the accumulator unchanged after the single request. -/
theorem C5_pagination_full_and_partial_witness :
    (fun _ _ => (none : Option JiraSearchResponse)) 7 50 = none ∧
    getAllIssuesGo (fun _ _ => none) none 1 [3] 7 = ([3], [7]) :=
  ⟨rfl, C5_pagination_full_and_partial.2 (fun _ _ => none) none [3] 7 0 rfl⟩

/-- C6: for a server reporting total 137 and a cap of 60, getAllIssues
returns exactly the first 60 items and requests only the offsets 0 and 50:
the cap is detected right after the second page and no third page is
requested. -/
theorem C6_cap_sixty :
    getAllIssues (serverTotal 137) (some 60) 10 = (List.range 60, [0, 50]) := by
  decide

/-- C9: a cap of 0 is falsy in the guard limit && allIssues.length >= limit,
so it behaves exactly like an absent cap: the loop pages to the natural end
and returns everything accumulated, not an empty list. -/
theorem C9_zero_cap_means_no_cap :
    (∀ search acc startAt fuel,
       getAllIssuesGo search (some 0) fuel acc startAt =
         getAllIssuesGo search none fuel acc startAt) ∧
    getAllIssues (serverTotal 137) (some 0) 10 = (List.range 137, [0, 50, 100]) := by
  constructor
  · intro search acc startAt fuel
    induction fuel generalizing acc startAt with
    | zero => rfl
    | succ n ih =>
      simp only [getAllIssuesGo]
      cases hs : search startAt 50 with
      | none => rfl
      | some resp =>
        simp only [limitHit, beq_self_eq_true, if_true, Option.getD]
        rw [ih]
  · decide

/-! ## Ledger association-list lemmas -/

theorem lookupProject_setProject_self (ps : List (String × CheckpointState))
    (key : String) (s : CheckpointState) :
    lookupProject (setProject ps key s) key = some s := by
  induction ps with
  | nil => simp [setProject, lookupProject]
  | cons a rest ih =>
    obtain ⟨k0, s0⟩ := a
    by_cases h : k0 = key <;> simp [setProject, lookupProject, h, ih]

theorem lookupProject_setProject_ne (ps : List (String × CheckpointState))
    (key k : String) (s : CheckpointState) (h : key ≠ k) :
    lookupProject (setProject ps key s) k = lookupProject ps k := by
  induction ps with
  | nil => simp [setProject, lookupProject, h]
  | cons a rest ih =>
    obtain ⟨k0, s0⟩ := a
    by_cases h0 : k0 = key
    · subst h0
      simp [setProject, lookupProject, h]
    · simp [setProject, lookupProject, h0, ih]

theorem lookupProject_modifyProject (ps : List (String × CheckpointState))
    (key k : String) (f : CheckpointState → CheckpointState) :
    lookupProject (modifyProject ps key f) k =
      if key = k then (lookupProject ps k).map f else lookupProject ps k := by
  induction ps with
  | nil => simp [modifyProject, lookupProject]
  | cons a rest ih =>
    obtain ⟨k0, s0⟩ := a
    by_cases h0 : k0 = key
    · subst h0
      by_cases hk : k0 = k
      · subst hk
        simp [modifyProject, lookupProject]
      · simp [modifyProject, lookupProject, hk]
    · by_cases hk : k0 = k
      · subst hk
        simp [modifyProject, lookupProject, h0, Ne.symm h0]
      · simp [modifyProject, lookupProject, h0, hk, ih]

/-! ## Ledger write-log lemmas -/

theorem step_writes_nil (cp : ScraperCheckpoint) (op : LedgerOp)
    (h : (step cp op).2 = []) : (step cp op).1 = cp := by
  cases op with
  | opInitProject k now =>
    simp only [step, initProject] at h ⊢
    cases hs : lookupProject cp.projects k with
    | none => rw [hs] at h; simp [save] at h
    | some s => rfl
  | opUpdateProgress k key i now =>
    simp only [step, updateProgress, save] at h
    simp at h
  | opMarkProjectCompleted k now =>
    simp only [step, markProjectCompleted] at h ⊢
    cases hs : lookupProject cp.projects k with
    | none => rfl
    | some s => rw [hs] at h; simp [save] at h
  | opClear now => simp [step, clear, save] at h
  | opGetLastIndex k => rfl
  | opIsProjectCompleted k => rfl
  | opGetProjectState k => rfl
  | opGetAllStates => rfl
  | opGetSummary => rfl

theorem step_writes_last (cp : ScraperCheckpoint) (op : LedgerOp) :
    (step cp op).2 = [] ∨ (step cp op).2.getLast? = some (step cp op).1 := by
  cases op with
  | opInitProject k now =>
    simp only [step, initProject]
    cases hs : lookupProject cp.projects k with
    | none => right; simp [save]
    | some s => left; rfl
  | opUpdateProgress k key i now =>
    right
    simp only [step, updateProgress, save]
    exact List.getLast?_concat _
  | opMarkProjectCompleted k now =>
    simp only [step, markProjectCompleted]
    cases hs : lookupProject cp.projects k with
    | none => left; rfl
    | some s => right; simp [save]
  | opClear now => right; simp [step, clear, save]
  | opGetLastIndex k => left; rfl
  | opIsProjectCompleted k => left; rfl
  | opGetProjectState k => left; rfl
  | opGetAllStates => left; rfl
  | opGetSummary => left; rfl

theorem run_writes_nil (ops : List LedgerOp) :
    ∀ cp, (run cp ops).2 = [] → (run cp ops).1 = cp := by
  induction ops with
  | nil => intro cp _; rfl
  | cons op ops ih =>
    intro cp h
    simp only [run, List.append_eq_nil] at h ⊢
    rw [ih _ h.2, step_writes_nil _ _ h.1]

theorem run_writes_last (ops : List LedgerOp) :
    ∀ cp d, (run cp ops).2.getLast? = some d → d = (run cp ops).1 := by
  induction ops with
  | nil => intro cp d h; simp [run] at h
  | cons op ops ih =>
    intro cp d h
    simp only [run, List.getLast?_append] at h ⊢
    cases hr : (run (step cp op).1 ops).2.getLast? with
    | some d2 =>
      rw [hr] at h
      simp only [Option.or_some] at h
      cases h
      exact ih _ _ hr
    | none =>
      rw [hr] at h
      simp only [Option.none_or] at h
      have hnil : (run (step cp op).1 ops).2 = [] := by
        cases hww : (run (step cp op).1 ops).2 with
        | nil => rfl
        | cons x xs => rw [hww] at hr; simp [List.getLast?] at hr
      have hfin : (run (step cp op).1 ops).1 = (step cp op).1 :=
        run_writes_nil ops _ hnil
      rcases step_writes_last cp op with hstep | hstep
      · rw [hstep] at h; simp at h
      · rw [hstep] at h
        cases h
        exact hfin.symm

/-! ## Ledger claim theorems -/

/-- C1 counterexample: updateProgress stores whatever index the caller
passes and keeps mutating a record after it was marked completed. First
scenario: two updateProgress calls on a never-completed collection drive
lastIndex from 5 down to 1, refuting monotonicity. Second scenario: after
initProject and markProjectCompleted, a further updateProgress (not a
clear) changes the completed record, moving lastIndex from -1 to 9. -/
theorem C1_counterexample :
    (isProjectCompleted (step cpEmpty (.opUpdateProgress "X" "X-5" 5 "t1")).1 "X" = false ∧
     getLastIndex (step cpEmpty (.opUpdateProgress "X" "X-5" 5 "t1")).1 "X" = 5 ∧
     getLastIndex (step (step cpEmpty (.opUpdateProgress "X" "X-5" 5 "t1")).1
       (.opUpdateProgress "X" "X-1" 1 "t2")).1 "X" = 1 ∧
     isProjectCompleted (step (step cpEmpty (.opUpdateProgress "X" "X-5" 5 "t1")).1
       (.opUpdateProgress "X" "X-1" 1 "t2")).1 "X" = false) ∧
    (isProjectCompleted cpCompletedX "X" = true ∧
     getLastIndex cpCompletedX "X" = -1 ∧
     (LedgerOp.opUpdateProgress "X" "X-9" 9 "t3").isClearOp = false ∧
     getLastIndex (step cpCompletedX (.opUpdateProgress "X" "X-9" 9 "t3")).1 "X" = 9) := by
  decide

/-- C1 amended: getLastIndex right after updateProgress is exactly the
index the caller passed (so lastIndex is non-decreasing only along call
sequences whose updateProgress indices are non-decreasing), and once a
record is completed it is left untouched by every operation except clear()
and updateProgress on that same collection. -/
theorem C1_amended_ledger_invariant :
    (∀ cp k key i now, getLastIndex (updateProgress cp k key i now).1 k = i) ∧
    (∀ cp op k r, lookupProject cp.projects k = some r → r.completed = true →
       op.isClearOp = false → LedgerOp.isUpdateOn k op = false →
       lookupProject (step cp op).1.projects k = some r) := by
  constructor
  · intro cp k key i now
    unfold updateProgress getLastIndex
    cases hs : lookupProject cp.projects k with
    | none =>
      simp [initProject, hs, save, lookupProject_modifyProject,
        lookupProject_setProject_self]
    | some s =>
      simp [save, lookupProject_modifyProject, hs]
  · intro cp op k r hr hc h1 h2
    cases op with
    | opInitProject k0 now =>
      simp only [step, initProject]
      cases hq : lookupProject cp.projects k0 with
      | some s => exact hr
      | none =>
        have hne : k0 ≠ k := by
          intro he; subst he; rw [hr] at hq; cases hq
        simp [save, lookupProject_setProject_ne _ _ _ _ hne, hr]
    | opUpdateProgress k0 key i now =>
      have hne : k0 ≠ k := by
        simp only [LedgerOp.isUpdateOn, beq_eq_false_iff_ne, ne_eq] at h2
        exact h2
      simp only [step, updateProgress, save]
      cases hq : lookupProject cp.projects k0 with
      | some s =>
        simp [lookupProject_modifyProject, hne, hr]
      | none =>
        simp [initProject, hq, save, lookupProject_modifyProject, hne,
          lookupProject_setProject_ne _ _ _ _ hne, hr]
    | opMarkProjectCompleted k0 now =>
      simp only [step, markProjectCompleted]
      cases hq : lookupProject cp.projects k0 with
      | none => exact hr
      | some s =>
        by_cases hk : k0 = k
        · subst hk
          simp only [save, lookupProject_modifyProject, if_pos rfl, hr,
            Option.map_some]
          cases r
          simp only [CheckpointState.mk.injEq] at hc ⊢
          simp [hc]
        · simp [save, lookupProject_modifyProject, hk, hr]
    | opClear now => simp [LedgerOp.isClearOp] at h1
    | opGetLastIndex k0 => exact hr
    | opIsProjectCompleted k0 => exact hr
    | opGetProjectState k0 => exact hr
    | opGetAllStates => exact hr
    | opGetSummary => exact hr

/-- C1 amended witness: on the empty ledger an updateProgress with index 2
leaves getLastIndex at 2; and on a ledger whose record for X is completed,
an initProject of a different collection (neither a clear nor an
updateProgress on X) leaves the record of X exactly as it was. -/
theorem C1_amended_ledger_invariant_witness :
    getLastIndex (updateProgress cpEmpty "X" "X-2" 2 "t1").1 "X" = 2 ∧
    (lookupProject cpCompletedX.projects "X" = some recCompletedX ∧
     recCompletedX.completed = true ∧
     (LedgerOp.opInitProject "Y" "t5").isClearOp = false ∧
     LedgerOp.isUpdateOn "X" (LedgerOp.opInitProject "Y" "t5") = false ∧
     lookupProject (step cpCompletedX (.opInitProject "Y" "t5")).1.projects "X" =
       some recCompletedX) :=
  ⟨C1_amended_ledger_invariant.1 cpEmpty "X" "X-2" 2 "t1",
   by
    refine ⟨by decide, rfl, rfl, rfl, ?_⟩
    exact C1_amended_ledger_invariant.2 cpCompletedX (.opInitProject "Y" "t5")
      "X" recCompletedX (by decide) rfl rfl rfl⟩

/-- C7: round-trip fidelity over any operation history: when d is the last
document a run persisted, a fresh ledger that loads d answers getLastIndex
and isProjectCompleted for every collection exactly as the ledger at the
end of the run does. -/
theorem C7_round_trip (cp0 : ScraperCheckpoint) (ops : List LedgerOp)
    (d : ScraperCheckpoint) (now k : String)
    (h : (run cp0 ops).2.getLast? = some d) :
    getLastIndex (loadDoc (some d) now) k = getLastIndex (run cp0 ops).1 k ∧
    isProjectCompleted (loadDoc (some d) now) k = isProjectCompleted (run cp0 ops).1 k := by
  have hd := run_writes_last ops cp0 d h
  subst hd
  exact ⟨rfl, rfl⟩

/-- C7 witness: after one updateProgress on the empty ledger, the last
persisted document is docX, and a reload of docX reproduces the in-memory
query results for collection X. -/
theorem C7_round_trip_witness :
    (run cpEmpty [LedgerOp.opUpdateProgress "X" "X-5" 5 "t1"]).2.getLast? = some docX ∧
    (getLastIndex (loadDoc (some docX) "t9") "X" =
       getLastIndex (run cpEmpty [LedgerOp.opUpdateProgress "X" "X-5" 5 "t1"]).1 "X" ∧
     isProjectCompleted (loadDoc (some docX) "t9") "X" =
       isProjectCompleted (run cpEmpty [LedgerOp.opUpdateProgress "X" "X-5" 5 "t1"]).1 "X") :=
  ⟨by decide,
   C7_round_trip cpEmpty [LedgerOp.opUpdateProgress "X" "X-5" 5 "t1"] docX
     "t9" "X" (by decide)⟩

/-- C8: initProject is idempotent: on an absent key it creates the record
with lastIssueIndex -1, totalIssuesProcessed 0 and completed false; on an
existing key it changes nothing at all - same in-memory document, no write
to durable storage. -/
theorem C8_initProject_idempotent :
    (∀ cp k now, lookupProject cp.projects k = none →
       lookupProject (initProject cp k now).1.projects k =
         some { projectKey := k, lastIssueKey := "", lastIssueIndex := -1,
                totalIssuesProcessed := 0, timestamp := now, completed := false }) ∧
    (∀ cp k now, (lookupProject cp.projects k).isSome →
       initProject cp k now = (cp, [])) := by
  constructor
  · intro cp k now h
    simp [initProject, h, save, lookupProject_setProject_self]
  · intro cp k now h
    cases hs : lookupProject cp.projects k with
    | none => rw [hs] at h; cases h
    | some s => simp [initProject, hs]

/-- C8 witness: creating X on the empty ledger yields the sentinel record,
and a second initProject of X is a complete no-op. -/
theorem C8_initProject_idempotent_witness :
    (lookupProject cpEmpty.projects "X" = none ∧
     lookupProject (initProject cpEmpty "X" "t1").1.projects "X" =
       some { projectKey := "X", lastIssueKey := "", lastIssueIndex := -1,
              totalIssuesProcessed := 0, timestamp := "t1", completed := false }) ∧
    ((lookupProject (initProject cpEmpty "X" "t1").1.projects "X").isSome ∧
     initProject (initProject cpEmpty "X" "t1").1 "X" "t2" =
       ((initProject cpEmpty "X" "t1").1, [])) :=
  ⟨⟨rfl, C8_initProject_idempotent.1 cpEmpty "X" "t1" rfl⟩,
   ⟨by decide, C8_initProject_idempotent.2 (initProject cpEmpty "X" "t1").1
      "X" "t2" (by decide)⟩⟩

/-- C10: the five query methods neither change the in-memory document nor
write to durable storage; initProject writes exactly when it creates a
record, markProjectCompleted exactly when the record exists, and
updateProgress and clear always write. -/
theorem C10_query_frame :
    (∀ cp k, step cp (.opGetLastIndex k) = (cp, []) ∧
       step cp (.opIsProjectCompleted k) = (cp, []) ∧
       step cp (.opGetProjectState k) = (cp, [])) ∧
    (∀ cp, step cp .opGetAllStates = (cp, []) ∧ step cp .opGetSummary = (cp, [])) ∧
    (∀ cp k now, (step cp (.opInitProject k now)).2 ≠ [] ↔
       lookupProject cp.projects k = none) ∧
    (∀ cp k key i now, (step cp (.opUpdateProgress k key i now)).2 ≠ []) ∧
    (∀ cp k now, ((step cp (.opMarkProjectCompleted k now)).2 ≠ [] ↔
       (lookupProject cp.projects k).isSome)) ∧
    (∀ cp now, (step cp (.opClear now)).2 ≠ []) := by
  refine ⟨fun cp k => ⟨rfl, rfl, rfl⟩, fun cp => ⟨rfl, rfl⟩, ?_, ?_, ?_, ?_⟩
  · intro cp k now
    simp only [step, initProject]
    cases hs : lookupProject cp.projects k with
    | none => simp [save]
    | some s => simp
  · intro cp k key i now
    simp [step, updateProgress, save]
  · intro cp k now
    simp only [step, markProjectCompleted]
    cases hs : lookupProject cp.projects k with
    | none => simp
    | some s => simp [save]
  · intro cp now
    simp [step, clear, save]

end Scraper
